import Mathlib

/-!
# Verification of the DAC confidential-token program

Shallow embedding of `src/programs/dac-token/src/lib.rs` (the Dark Alpha
Confidential token program).  Pubkeys and 128-bit handles are modelled as
naturals, byte buffers as lists of naturals, and the two external services
(the SPL token program and the Inco Lightning encrypted-value program) as an
oracle environment `Env` whose answers determine the outcome of every CPI.
Each instruction handler is a pure function from the oracle, the instruction
context and the arguments to a result record carrying the Anchor result, the
post-state of each mutable account, and the ordered list of external calls
the handler issued before returning.

The embedding follows the statement order of the Rust handler bodies: an
account field assignment takes effect at the point of the assignment, and an
error propagated with `?` returns the in-memory account state as of that
point together with the calls issued so far.  Anchor's account constraints
(`#[account(constraint = ...)]`) are evaluated before the handler body runs,
hence before any external call, and are modelled as the leading checks of
each function, in struct-field declaration order.
-/

instance {ε α : Type} [DecidableEq ε] [DecidableEq α] : DecidableEq (Except ε α) := by
  intro x y
  cases x <;> cases y
  case error.error a b =>
    exact if h : a = b then .isTrue (by rw [h]) else .isFalse (by simp [h])
  case ok.ok a b =>
    exact if h : a = b then .isTrue (by rw [h]) else .isFalse (by simp [h])
  case error.ok a b => exact .isFalse (by simp)
  case ok.error a b => exact .isFalse (by simp)

/-- Byte buffers (`Vec<u8>` / `&[u8]`) as lists of naturals. -/
abbrev Bytes := List Nat

/-- `AccountState` from the source: lifecycle state of a `DacAccount`. -/
inductive AccountState where
  | Uninitialized
  | Initialized
  | Frozen
deriving DecidableEq, Repr

/-- `DacMint`: the per-asset registry record (authority, USDC mint, decimals,
init flag, encrypted total supply handle, vault PDA bump). -/
structure DacMint where
  authority : Nat
  usdc_mint : Nat
  decimals : Nat
  is_initialized : Bool
  total_supply_handle : Nat
  vault_bump : Nat
deriving DecidableEq, Repr

/-- `DacAccount`: the per-holder confidential account record. -/
structure DacAccount where
  mint : Nat
  owner : Nat
  balance_handle : Nat
  state : AccountState
  bump : Nat
deriving DecidableEq, Repr

/-- `DacError` from the source (`#[error_code]`). -/
inductive DacError where
  | UninitializedMint
  | AccountNotInitialized
  | NotOwner
  | MintMismatch
  | ZeroAmount
  | InvalidPlaintext
deriving DecidableEq, Repr

/-- An instruction error: a named `DacError`, or an error propagated with `?`
from a CPI into the token program or the Inco Lightning program. -/
inductive ProgError where
  | dac : DacError → ProgError
  | cpi : ProgError
deriving DecidableEq, Repr

/-- One external call issued by a handler, in the order the handler makes
them: SPL-token transfers into and out of the vault, and the Inco Lightning
operations `new_euint128`, `e_add`, `e_sub`, `allow`, `is_validsignature`. -/
inductive ExtCall where
  | tokenTransferToVault (amount : Nat)
  | tokenTransferFromVault (amount : Nat)
  | newEuint128 (ciphertext : Bytes)
  | eAdd (a b : Nat)
  | eSub (a b : Nat)
  | allowCall (handle : Nat)
  | verifySig (handles : List Bytes) (plaintexts : List Bytes)
deriving DecidableEq, Repr

/-- Oracle for the two external services: for each call shape, what the
service would answer.  `none` / `false` means the CPI fails (the handler's
`?` then propagates the error). -/
structure Env where
  transferToVault : Nat → Bool
  transferFromVault : Nat → Bool
  newEuint128 : Bytes → Option Nat
  eAdd : Nat → Nat → Option Nat
  eSub : Nat → Nat → Option Nat
  allowOk : Nat → Bool
  isValidSignature : List Bytes → List Bytes → Bool

/-- `u64::from_le_bytes`: little-endian recomposition of a byte list. -/
def u64_from_le_bytes (bs : Bytes) : Nat :=
  bs.foldr (fun b acc => b + 256 * acc) 0

/-- `parse_plaintext_to_u64` from the source: buffers shorter than 8 bytes
are copied into a zero `[0u8; 8]` array (zero-padding the high-order side);
otherwise the first 8 bytes are taken (`plaintext[..8].try_into()`, whose
failure arm maps to `InvalidPlaintext`). -/
def parse_plaintext_to_u64 (plaintext : Bytes) : Except DacError Nat :=
  if plaintext.length < 8 then
    Except.ok (u64_from_le_bytes (plaintext ++ List.replicate (8 - plaintext.length) 0))
  else
    if (plaintext.take 8).length = 8 then
      Except.ok (u64_from_le_bytes (plaintext.take 8))
    else
      Except.error DacError.InvalidPlaintext

/-! ## Instruction contexts and results -/

/-- The accounts of the `Deposit` context that the handler reads or writes,
plus the number of `remaining_accounts` supplied with the call. -/
structure DepositCtx where
  dac_mint : DacMint
  dac_account : DacAccount
  user : Nat
  n_remaining : Nat
deriving DecidableEq, Repr

/-- Outcome of a `deposit` call: the handler's result, the post-state of the
mutable accounts, and the external calls issued (in order). -/
structure DepositResult where
  res : Except ProgError Unit
  dac_mint : DacMint
  dac_account : DacAccount
  trace : List ExtCall
deriving DecidableEq, Repr

/-- The accounts of the `TransferDac` context that the handler reads or
writes, plus the number of `remaining_accounts`. -/
structure TransferCtx where
  source : DacAccount
  destination : DacAccount
  authority : Nat
  n_remaining : Nat
deriving DecidableEq, Repr

/-- Outcome of a `transfer_tokens` call. -/
structure TransferResult where
  res : Except ProgError Unit
  source : DacAccount
  destination : DacAccount
  trace : List ExtCall
deriving DecidableEq, Repr

/-- The accounts of the `Withdraw` context that the handler reads or writes. -/
structure WithdrawCtx where
  dac_mint : DacMint
  dac_account : DacAccount
  user : Nat
deriving DecidableEq, Repr

/-- Outcome of a `withdraw` call. -/
structure WithdrawResult where
  res : Except ProgError Unit
  dac_mint : DacMint
  dac_account : DacAccount
  trace : List ExtCall
deriving DecidableEq, Repr

/-! ## The three instruction handlers -/

/-- Tail of `deposit`: the best-effort access grant.  The Rust handler runs
the `allow` CPI only when at least two `remaining_accounts` were supplied,
and propagates its failure with `?` (after the balance assignment has already
happened in memory). -/
def depositAllowStep (env : Env) (ctx : DepositCtx) (account : DacAccount)
    (t : List ExtCall) : DepositResult :=
  if 2 ≤ ctx.n_remaining then
    let t1 := t ++ [ExtCall.allowCall account.balance_handle]
    if env.allowOk account.balance_handle then
      ⟨Except.ok (), ctx.dac_mint, account, t1⟩
    else
      ⟨Except.error ProgError.cpi, ctx.dac_mint, account, t1⟩
  else
    ⟨Except.ok (), ctx.dac_mint, account, t⟩

/-- `deposit` from the source.  Anchor constraints first (`owner == user` else
`NotOwner`, `state == Initialized` else `AccountNotInitialized`), then the
USDC transfer into the vault, then `new_euint128`, then either direct
adoption (sentinel balance) or `e_add`, then the best-effort `allow`. -/
def deposit (env : Env) (ctx : DepositCtx) (usdc_amount : Nat)
    (encrypted_amount : Bytes) : DepositResult :=
  if ctx.dac_account.owner ≠ ctx.user then
    ⟨Except.error (ProgError.dac DacError.NotOwner), ctx.dac_mint, ctx.dac_account, []⟩
  else if ctx.dac_account.state ≠ AccountState.Initialized then
    ⟨Except.error (ProgError.dac DacError.AccountNotInitialized), ctx.dac_mint,
      ctx.dac_account, []⟩
  else
    let t1 := [ExtCall.tokenTransferToVault usdc_amount]
    if env.transferToVault usdc_amount = false then
      ⟨Except.error ProgError.cpi, ctx.dac_mint, ctx.dac_account, t1⟩
    else
      let t2 := t1 ++ [ExtCall.newEuint128 encrypted_amount]
      match env.newEuint128 encrypted_amount with
      | none => ⟨Except.error ProgError.cpi, ctx.dac_mint, ctx.dac_account, t2⟩
      | some new_handle =>
        if ctx.dac_account.balance_handle = 0 then
          depositAllowStep env ctx { ctx.dac_account with balance_handle := new_handle } t2
        else
          let t3 := t2 ++ [ExtCall.eAdd ctx.dac_account.balance_handle new_handle]
          match env.eAdd ctx.dac_account.balance_handle new_handle with
          | none => ⟨Except.error ProgError.cpi, ctx.dac_mint, ctx.dac_account, t3⟩
          | some new_balance =>
            depositAllowStep env ctx { ctx.dac_account with balance_handle := new_balance } t3

/-- Tail of `transfer_tokens`: the two best-effort access grants, run only
when at least four `remaining_accounts` were supplied; each failure is
propagated with `?`. -/
def transferAllowStep (env : Env) (ctx : TransferCtx) (src dst : DacAccount)
    (new_source_balance : Nat) (t : List ExtCall) : TransferResult :=
  if 4 ≤ ctx.n_remaining then
    let t1 := t ++ [ExtCall.allowCall new_source_balance]
    if env.allowOk new_source_balance = false then
      ⟨Except.error ProgError.cpi, src, dst, t1⟩
    else
      let t2 := t1 ++ [ExtCall.allowCall dst.balance_handle]
      if env.allowOk dst.balance_handle = false then
        ⟨Except.error ProgError.cpi, src, dst, t2⟩
      else
        ⟨Except.ok (), src, dst, t2⟩
  else
    ⟨Except.ok (), src, dst, t⟩

/-- `transfer_tokens` from the source.  Anchor constraints first (source:
`owner == authority` else `NotOwner`, state; destination: state, `mint ==
source.mint` else `MintMismatch`), then `new_euint128`, then `e_sub` on the
source's stored handle (unconditionally) with commit, then either direct
adoption (destination at sentinel) or `e_add` with commit, then the grants. -/
def transfer_tokens (env : Env) (ctx : TransferCtx) (encrypted_amount : Bytes) :
    TransferResult :=
  if ctx.source.owner ≠ ctx.authority then
    ⟨Except.error (ProgError.dac DacError.NotOwner), ctx.source, ctx.destination, []⟩
  else if ctx.source.state ≠ AccountState.Initialized then
    ⟨Except.error (ProgError.dac DacError.AccountNotInitialized), ctx.source,
      ctx.destination, []⟩
  else if ctx.destination.state ≠ AccountState.Initialized then
    ⟨Except.error (ProgError.dac DacError.AccountNotInitialized), ctx.source,
      ctx.destination, []⟩
  else if ctx.destination.mint ≠ ctx.source.mint then
    ⟨Except.error (ProgError.dac DacError.MintMismatch), ctx.source, ctx.destination, []⟩
  else
    let t1 := [ExtCall.newEuint128 encrypted_amount]
    match env.newEuint128 encrypted_amount with
    | none => ⟨Except.error ProgError.cpi, ctx.source, ctx.destination, t1⟩
    | some transfer_amount =>
      let t2 := t1 ++ [ExtCall.eSub ctx.source.balance_handle transfer_amount]
      match env.eSub ctx.source.balance_handle transfer_amount with
      | none => ⟨Except.error ProgError.cpi, ctx.source, ctx.destination, t2⟩
      | some new_source_balance =>
        let src := { ctx.source with balance_handle := new_source_balance }
        if ctx.destination.balance_handle = 0 then
          transferAllowStep env ctx src
            { ctx.destination with balance_handle := transfer_amount } new_source_balance t2
        else
          let t3 := t2 ++ [ExtCall.eAdd ctx.destination.balance_handle transfer_amount]
          match env.eAdd ctx.destination.balance_handle transfer_amount with
          | none => ⟨Except.error ProgError.cpi, src, ctx.destination, t3⟩
          | some new_dest_balance =>
            transferAllowStep env ctx src
              { ctx.destination with balance_handle := new_dest_balance } new_source_balance t3

/-- `withdraw` from the source.  Anchor constraints first (`owner == user`
else `NotOwner`, state), then `is_validsignature` on the caller-supplied
handle bytes and plaintext, then `parse_plaintext_to_u64`, then
`require!(amount > 0, ZeroAmount)`, then the vault-to-user USDC transfer, and
only then the reset of `balance_handle` to the 0 sentinel. -/
def withdraw (env : Env) (ctx : WithdrawCtx) (balance_handle : Bytes)
    (plaintext_amount : Bytes) : WithdrawResult :=
  if ctx.dac_account.owner ≠ ctx.user then
    ⟨Except.error (ProgError.dac DacError.NotOwner), ctx.dac_mint, ctx.dac_account, []⟩
  else if ctx.dac_account.state ≠ AccountState.Initialized then
    ⟨Except.error (ProgError.dac DacError.AccountNotInitialized), ctx.dac_mint,
      ctx.dac_account, []⟩
  else
    let t1 := [ExtCall.verifySig [balance_handle] [plaintext_amount]]
    if env.isValidSignature [balance_handle] [plaintext_amount] = false then
      ⟨Except.error ProgError.cpi, ctx.dac_mint, ctx.dac_account, t1⟩
    else
      match parse_plaintext_to_u64 plaintext_amount with
      | Except.error e => ⟨Except.error (ProgError.dac e), ctx.dac_mint, ctx.dac_account, t1⟩
      | Except.ok amount =>
        if amount = 0 then
          ⟨Except.error (ProgError.dac DacError.ZeroAmount), ctx.dac_mint,
            ctx.dac_account, t1⟩
        else
          let t2 := t1 ++ [ExtCall.tokenTransferFromVault amount]
          if env.transferFromVault amount = false then
            ⟨Except.error ProgError.cpi, ctx.dac_mint, ctx.dac_account, t2⟩
          else
            ⟨Except.ok (), ctx.dac_mint,
              { ctx.dac_account with balance_handle := 0 }, t2⟩

/-! ## Trace-shape helpers and concrete sample data -/

/-- Is this call an `e_add`? -/
def ExtCall.isEAdd : ExtCall → Bool
  | ExtCall.eAdd _ _ => true
  | _ => false

/-- Is this call an `e_sub`? -/
def ExtCall.isESub : ExtCall → Bool
  | ExtCall.eSub _ _ => true
  | _ => false

/-- Is this call a vault-to-user token transfer (custody release)? -/
def ExtCall.isFromVault : ExtCall → Bool
  | ExtCall.tokenTransferFromVault _ => true
  | _ => false

/-- A sample oracle on which every external call succeeds. -/
def envA : Env where
  transferToVault := fun _ => true
  transferFromVault := fun _ => true
  newEuint128 := fun ct => some (u64_from_le_bytes ct + 1)
  eAdd := fun a b => some (a + b + 1)
  eSub := fun a b => some (a + 2 * b + 3)
  allowOk := fun _ => true
  isValidSignature := fun _ _ => true

/-- A sample oracle on which every access-grant (`allow`) call fails and
everything else succeeds. -/
def envAllowFail : Env :=
  { envA with allowOk := fun _ => false }

/-- A sample oracle on which the access-grant (`allow`) call fails exactly
on handle 4 and everything else succeeds — used to exercise a failure of
the second (destination) grant of a transfer. -/
def envDestAllowFail : Env :=
  { envA with allowOk := fun h => decide (h ≠ 4) }

/-- A sample oracle on which every `e_sub` call fails and everything else
succeeds. -/
def envESubFail : Env :=
  { envA with eSub := fun _ _ => none }

/-- A sample oracle on which the custody release (vault-to-user transfer)
fails and everything else succeeds. -/
def envVaultFail : Env :=
  { envA with transferFromVault := fun _ => false }

/-- A sample oracle on which signature verification fails and everything
else succeeds. -/
def envSigFail : Env :=
  { envA with isValidSignature := fun _ _ => false }

/-- A sample registry record. -/
def mintA : DacMint := ⟨1, 2, 6, true, 0, 255⟩

/-- A sample account at the zero sentinel, owned by identity 20. -/
def acctZero : DacAccount := ⟨10, 20, 0, AccountState.Initialized, 254⟩

/-- A sample account with a nonzero balance handle, owned by identity 21. -/
def acctPos : DacAccount := ⟨10, 21, 77, AccountState.Initialized, 253⟩

/-! ## Theorems -/

theorem u64_from_le_bytes_nil : u64_from_le_bytes [] = 0 := rfl

theorem u64_from_le_bytes_cons (b : Nat) (bs : Bytes) :
    u64_from_le_bytes (b :: bs) = b + 256 * u64_from_le_bytes bs := rfl

theorem u64_from_le_bytes_replicate_zero (k : Nat) :
    u64_from_le_bytes (List.replicate k 0) = 0 := by
  induction k with
  | zero => rfl
  | succ n ih => simp [List.replicate_succ, u64_from_le_bytes_cons, ih]

theorem u64_from_le_bytes_append_zeros (bs : Bytes) (k : Nat) :
    u64_from_le_bytes (bs ++ List.replicate k 0) = u64_from_le_bytes bs := by
  induction bs with
  | nil => simpa using u64_from_le_bytes_replicate_zero k
  | cons b rest ih => simp [List.cons_append, u64_from_le_bytes_cons, ih]

/-- C7: decoding `plaintext_amount` always succeeds: the result is the
little-endian value of the first `min 8 (length)` bytes.  In particular a
length-0 buffer decodes to 0, a buffer of length 1–8 is interpreted
little-endian (zero-padding on the high-order side does not change the
value), and a longer buffer is deliberately truncated to its first 8 bytes,
never an error. -/
theorem parse_plaintext_total (bs : Bytes) :
    parse_plaintext_to_u64 bs = Except.ok (u64_from_le_bytes (bs.take 8)) ∧
    parse_plaintext_to_u64 [] = Except.ok 0 ∧
    (bs.length ≤ 8 → parse_plaintext_to_u64 bs = Except.ok (u64_from_le_bytes bs)) ∧
    (∃ n, parse_plaintext_to_u64 bs = Except.ok n) := by
  have hmain : parse_plaintext_to_u64 bs = Except.ok (u64_from_le_bytes (bs.take 8)) := by
    unfold parse_plaintext_to_u64
    by_cases h : bs.length < 8
    · rw [if_pos h]
      rw [List.take_of_length_le (Nat.le_of_lt h)]
      rw [u64_from_le_bytes_append_zeros]
    · rw [if_neg h]
      have h8 : (bs.take 8).length = 8 := by
        rw [List.length_take]
        exact Nat.min_eq_left (Nat.le_of_not_lt h)
      rw [if_pos h8]
  refine ⟨hmain, rfl, ?_, ⟨_, hmain⟩⟩
  intro hle
  rw [hmain, List.take_of_length_le hle]

/-- Witness for `parse_plaintext_total` at the concrete buffer `[1, 2]`. -/
theorem parse_plaintext_total_witness :
    parse_plaintext_to_u64 [1, 2] = Except.ok (u64_from_le_bytes [1, 2]) :=
  (parse_plaintext_total [1, 2]).2.2.1 (by decide)

/-- C4: ownership, state and same-registry checks are evaluated before any
external call and fail fast with no side effects: a caller other than the
account's owner (for transfer, other than `source.owner`) gets `NotOwner`
with an empty call trace and unchanged accounts; an account not in the
`Initialized` state gets `AccountNotInitialized` the same way; a transfer
whose destination is on a different mint gets `MintMismatch` the same way. -/
theorem preconditions_fail_fast (env : Env) (dctx : DepositCtx) (amt : Nat) (ct : Bytes)
    (tctx : TransferCtx) (ct2 : Bytes) (wctx : WithdrawCtx) (bh pt : Bytes) :
    (dctx.dac_account.owner ≠ dctx.user →
      deposit env dctx amt ct =
        ⟨Except.error (ProgError.dac DacError.NotOwner), dctx.dac_mint, dctx.dac_account, []⟩) ∧
    (dctx.dac_account.owner = dctx.user → dctx.dac_account.state ≠ AccountState.Initialized →
      deposit env dctx amt ct =
        ⟨Except.error (ProgError.dac DacError.AccountNotInitialized), dctx.dac_mint,
          dctx.dac_account, []⟩) ∧
    (tctx.source.owner ≠ tctx.authority →
      transfer_tokens env tctx ct2 =
        ⟨Except.error (ProgError.dac DacError.NotOwner), tctx.source, tctx.destination, []⟩) ∧
    (tctx.source.owner = tctx.authority → tctx.source.state ≠ AccountState.Initialized →
      transfer_tokens env tctx ct2 =
        ⟨Except.error (ProgError.dac DacError.AccountNotInitialized), tctx.source,
          tctx.destination, []⟩) ∧
    (tctx.source.owner = tctx.authority → tctx.source.state = AccountState.Initialized →
      tctx.destination.state ≠ AccountState.Initialized →
      transfer_tokens env tctx ct2 =
        ⟨Except.error (ProgError.dac DacError.AccountNotInitialized), tctx.source,
          tctx.destination, []⟩) ∧
    (tctx.source.owner = tctx.authority → tctx.source.state = AccountState.Initialized →
      tctx.destination.state = AccountState.Initialized →
      tctx.destination.mint ≠ tctx.source.mint →
      transfer_tokens env tctx ct2 =
        ⟨Except.error (ProgError.dac DacError.MintMismatch), tctx.source,
          tctx.destination, []⟩) ∧
    (wctx.dac_account.owner ≠ wctx.user →
      withdraw env wctx bh pt =
        ⟨Except.error (ProgError.dac DacError.NotOwner), wctx.dac_mint,
          wctx.dac_account, []⟩) ∧
    (wctx.dac_account.owner = wctx.user → wctx.dac_account.state ≠ AccountState.Initialized →
      withdraw env wctx bh pt =
        ⟨Except.error (ProgError.dac DacError.AccountNotInitialized), wctx.dac_mint,
          wctx.dac_account, []⟩) := by
  refine ⟨?_, ?_, ?_, ?_, ?_, ?_, ?_, ?_⟩
  · intro h; simp [deposit, h]
  · intro h1 h2; simp [deposit, h1, h2]
  · intro h; simp [transfer_tokens, h]
  · intro h1 h2; simp [transfer_tokens, h1, h2]
  · intro h1 h2 h3; simp [transfer_tokens, h1, h2, h3]
  · intro h1 h2 h3 h4; simp [transfer_tokens, h1, h2, h3, h4]
  · intro h; simp [withdraw, h]
  · intro h1 h2; simp [withdraw, h1, h2]

/-- Witness for `preconditions_fail_fast`: a wrong-owner deposit, a
wrong-mint transfer, and a wrong-owner withdraw, all at concrete inputs. -/
theorem preconditions_fail_fast_witness :
    deposit envA ⟨mintA, acctZero, 99, 2⟩ 5 [3] =
      ⟨Except.error (ProgError.dac DacError.NotOwner), mintA, acctZero, []⟩ ∧
    transfer_tokens envA ⟨acctPos, { acctZero with mint := 11 }, 21, 4⟩ [3] =
      ⟨Except.error (ProgError.dac DacError.MintMismatch), acctPos,
        { acctZero with mint := 11 }, []⟩ ∧
    withdraw envA ⟨mintA, acctPos, 99⟩ [7] [1] =
      ⟨Except.error (ProgError.dac DacError.NotOwner), mintA, acctPos, []⟩ := by
  refine ⟨?_, ?_, ?_⟩
  · exact (preconditions_fail_fast envA ⟨mintA, acctZero, 99, 2⟩ 5 [3]
      ⟨acctPos, { acctZero with mint := 11 }, 21, 4⟩ [3] ⟨mintA, acctPos, 99⟩ [7] [1]).1
      (by decide)
  · exact (preconditions_fail_fast envA ⟨mintA, acctZero, 99, 2⟩ 5 [3]
      ⟨acctPos, { acctZero with mint := 11 }, 21, 4⟩ [3] ⟨mintA, acctPos, 99⟩ [7] [1]).2.2.2.2.2.1
      (by decide) (by decide) (by decide) (by decide)
  · exact (preconditions_fail_fast envA ⟨mintA, acctZero, 99, 2⟩ 5 [3]
      ⟨acctPos, { acctZero with mint := 11 }, 21, 4⟩ [3] ⟨mintA, acctPos, 99⟩ [7] [1]).2.2.2.2.2.2.1
      (by decide)
/-- C2: withdraw is all-or-nothing on `balance_handle`: a failed proof
verification leaves the account unchanged; a failed custody release after a
successful proof and a nonzero decoded amount leaves the account unchanged;
and whenever the account record changes at all, the operation succeeded, the
handle was reset to the zero sentinel, and a successful vault-to-user
custody transfer for the decoded amount is in the call trace. -/
theorem withdraw_all_or_nothing (env : Env) (wctx : WithdrawCtx) (bh pt : Bytes) :
    (env.isValidSignature [bh] [pt] = false →
      (withdraw env wctx bh pt).dac_account = wctx.dac_account) ∧
    (∀ n, parse_plaintext_to_u64 pt = Except.ok n → 0 < n →
      env.transferFromVault n = false →
      (withdraw env wctx bh pt).dac_account = wctx.dac_account) ∧
    ((withdraw env wctx bh pt).dac_account ≠ wctx.dac_account →
      (withdraw env wctx bh pt).res = Except.ok () ∧
      (withdraw env wctx bh pt).dac_account.balance_handle = 0 ∧
      ∃ n, parse_plaintext_to_u64 pt = Except.ok n ∧ 0 < n ∧
        env.transferFromVault n = true ∧
        ExtCall.tokenTransferFromVault n ∈ (withdraw env wctx bh pt).trace) := by
  by_cases h1 : wctx.dac_account.owner = wctx.user
  · by_cases h2 : wctx.dac_account.state = AccountState.Initialized
    · by_cases h3 : env.isValidSignature [bh] [pt] = true
      · rcases hp : parse_plaintext_to_u64 pt with e | n
        · simp [withdraw, h1, h2, h3, hp]
        · by_cases h4 : n = 0
          · simp [withdraw, h1, h2, h3, hp, h4]
          · by_cases h5 : env.transferFromVault n = true
            · simp [withdraw, h1, h2, h3, hp, h4, h5]
              exact fun _ => Nat.pos_of_ne_zero h4
            · simp [withdraw, h1, h2, h3, hp, h4, h5]
      · simp at h3
        simp [withdraw, h1, h2, h3]
    · simp [withdraw, h1, h2]
  · simp [withdraw, h1]

/-- Witness for `withdraw_all_or_nothing`: a failed proof verification and a
failed custody release, each at concrete inputs, leave the account record
unchanged. -/
theorem withdraw_all_or_nothing_witness :
    (withdraw envSigFail ⟨mintA, acctPos, 21⟩ [7] [5]).dac_account = acctPos ∧
    (withdraw envVaultFail ⟨mintA, acctPos, 21⟩ [7] [5]).dac_account = acctPos := by
  constructor
  · exact (withdraw_all_or_nothing envSigFail ⟨mintA, acctPos, 21⟩ [7] [5]).1 (by decide)
  · exact (withdraw_all_or_nothing envVaultFail ⟨mintA, acctPos, 21⟩ [7] [5]).2.1 5
      (by decide) (by decide) (by decide)
/-- C8: a withdraw whose plaintext decodes to exactly 0, after successful
proof verification, fails with `ZeroAmount`, attempts no custody call, and
leaves the account record unchanged. -/
theorem withdraw_zero_amount (env : Env) (wctx : WithdrawCtx) (bh pt : Bytes)
    (h1 : wctx.dac_account.owner = wctx.user)
    (h2 : wctx.dac_account.state = AccountState.Initialized)
    (h3 : env.isValidSignature [bh] [pt] = true)
    (h4 : parse_plaintext_to_u64 pt = Except.ok 0) :
    (withdraw env wctx bh pt).res = Except.error (ProgError.dac DacError.ZeroAmount) ∧
    (withdraw env wctx bh pt).dac_account = wctx.dac_account ∧
    ∀ n, ExtCall.tokenTransferFromVault n ∉ (withdraw env wctx bh pt).trace := by
  simp [withdraw, h1, h2, h3, h4]

/-- Witness for `withdraw_zero_amount`: the empty plaintext buffer decodes
to 0 and is rejected with `ZeroAmount` and no custody call. -/
theorem withdraw_zero_amount_witness :
    (withdraw envA ⟨mintA, acctPos, 21⟩ [7] []).res =
      Except.error (ProgError.dac DacError.ZeroAmount) ∧
    (withdraw envA ⟨mintA, acctPos, 21⟩ [7] []).dac_account = acctPos ∧
    ∀ n, ExtCall.tokenTransferFromVault n ∉ (withdraw envA ⟨mintA, acctPos, 21⟩ [7] []).trace :=
  withdraw_zero_amount envA ⟨mintA, acctPos, 21⟩ [7] []
    (by decide) (by decide) (by decide) (by decide)

theorem deposit_frame (env : Env) (dctx : DepositCtx) (amt : Nat) (ct : Bytes) :
    (deposit env dctx amt ct).dac_mint = dctx.dac_mint ∧
    (deposit env dctx amt ct).dac_account.owner = dctx.dac_account.owner ∧
    (deposit env dctx amt ct).dac_account.mint = dctx.dac_account.mint ∧
    (deposit env dctx amt ct).dac_account.state = dctx.dac_account.state ∧
    (deposit env dctx amt ct).dac_account.bump = dctx.dac_account.bump := by
  unfold deposit depositAllowStep
  repeat' split
  all_goals simp

theorem transfer_frame (env : Env) (tctx : TransferCtx) (ct : Bytes) :
    (transfer_tokens env tctx ct).source.owner = tctx.source.owner ∧
    (transfer_tokens env tctx ct).source.mint = tctx.source.mint ∧
    (transfer_tokens env tctx ct).source.state = tctx.source.state ∧
    (transfer_tokens env tctx ct).source.bump = tctx.source.bump ∧
    (transfer_tokens env tctx ct).destination.owner = tctx.destination.owner ∧
    (transfer_tokens env tctx ct).destination.mint = tctx.destination.mint ∧
    (transfer_tokens env tctx ct).destination.state = tctx.destination.state ∧
    (transfer_tokens env tctx ct).destination.bump = tctx.destination.bump := by
  unfold transfer_tokens transferAllowStep
  repeat' split
  all_goals simp

theorem withdraw_frame (env : Env) (wctx : WithdrawCtx) (bh pt : Bytes) :
    (withdraw env wctx bh pt).dac_mint = wctx.dac_mint ∧
    (withdraw env wctx bh pt).dac_account.owner = wctx.dac_account.owner ∧
    (withdraw env wctx bh pt).dac_account.mint = wctx.dac_account.mint ∧
    (withdraw env wctx bh pt).dac_account.state = wctx.dac_account.state ∧
    (withdraw env wctx bh pt).dac_account.bump = wctx.dac_account.bump := by
  unfold withdraw
  repeat' split
  all_goals simp

/-- C9: the only persisted field any of the three operations modifies is the
`balance_handle` of the involved account(s): the registry record (where one
is part of the context, i.e. in deposit and withdraw — `TransferDac` carries
no registry account at all) is returned unchanged, so `total_supply_handle`
is never updated, and every account's `owner`, `mint`, `state` and `bump`
fields are unchanged. -/
theorem only_balance_handle_modified (env : Env) (dctx : DepositCtx) (amt : Nat)
    (ct : Bytes) (tctx : TransferCtx) (ct2 : Bytes) (wctx : WithdrawCtx) (bh pt : Bytes) :
    (deposit env dctx amt ct).dac_mint = dctx.dac_mint ∧
    (deposit env dctx amt ct).dac_mint.total_supply_handle =
      dctx.dac_mint.total_supply_handle ∧
    (deposit env dctx amt ct).dac_account.owner = dctx.dac_account.owner ∧
    (deposit env dctx amt ct).dac_account.mint = dctx.dac_account.mint ∧
    (deposit env dctx amt ct).dac_account.state = dctx.dac_account.state ∧
    (deposit env dctx amt ct).dac_account.bump = dctx.dac_account.bump ∧
    (transfer_tokens env tctx ct2).source.owner = tctx.source.owner ∧
    (transfer_tokens env tctx ct2).source.mint = tctx.source.mint ∧
    (transfer_tokens env tctx ct2).source.state = tctx.source.state ∧
    (transfer_tokens env tctx ct2).source.bump = tctx.source.bump ∧
    (transfer_tokens env tctx ct2).destination.owner = tctx.destination.owner ∧
    (transfer_tokens env tctx ct2).destination.mint = tctx.destination.mint ∧
    (transfer_tokens env tctx ct2).destination.state = tctx.destination.state ∧
    (transfer_tokens env tctx ct2).destination.bump = tctx.destination.bump ∧
    (withdraw env wctx bh pt).dac_mint = wctx.dac_mint ∧
    (withdraw env wctx bh pt).dac_mint.total_supply_handle =
      wctx.dac_mint.total_supply_handle ∧
    (withdraw env wctx bh pt).dac_account.owner = wctx.dac_account.owner ∧
    (withdraw env wctx bh pt).dac_account.mint = wctx.dac_account.mint ∧
    (withdraw env wctx bh pt).dac_account.state = wctx.dac_account.state ∧
    (withdraw env wctx bh pt).dac_account.bump = wctx.dac_account.bump := by
  obtain ⟨d1, d2, d3, d4, d5⟩ := deposit_frame env dctx amt ct
  obtain ⟨t1, t2, t3, t4, t5, t6, t7, t8⟩ := transfer_frame env tctx ct2
  obtain ⟨w1, w2, w3, w4, w5⟩ := withdraw_frame env wctx bh pt
  exact ⟨d1, by rw [d1], d2, d3, d4, d5, t1, t2, t3, t4, t5, t6, t7, t8,
    w1, by rw [w1], w2, w3, w4, w5⟩
/-- C10: withdraw never reads the stored `balance_handle`: two pre-states
that differ only in `dac_account.balance_handle` give the same result
status, the same external-call trace (hence the same custody amount), and
the same registry record; the stored handle is only ever written (reset to
the sentinel on success), never compared with the caller-supplied
`balance_handle` bytes. -/
theorem withdraw_reads_no_stored_handle (env : Env) (wctx : WithdrawCtx) (x : Nat)
    (bh pt : Bytes) :
    (withdraw env { wctx with
        dac_account := { wctx.dac_account with balance_handle := x } } bh pt).res =
      (withdraw env wctx bh pt).res ∧
    (withdraw env { wctx with
        dac_account := { wctx.dac_account with balance_handle := x } } bh pt).trace =
      (withdraw env wctx bh pt).trace ∧
    (withdraw env { wctx with
        dac_account := { wctx.dac_account with balance_handle := x } } bh pt).dac_mint =
      (withdraw env wctx bh pt).dac_mint := by
  by_cases h1 : wctx.dac_account.owner = wctx.user
  · by_cases h2 : wctx.dac_account.state = AccountState.Initialized
    · by_cases h3 : env.isValidSignature [bh] [pt] = true
      · rcases hp : parse_plaintext_to_u64 pt with e | n
        · simp [withdraw, h1, h2, h3, hp]
        · by_cases h4 : n = 0
          · simp [withdraw, h1, h2, h3, hp, h4]
          · by_cases h5 : env.transferFromVault n = true
            · simp [withdraw, h1, h2, h3, hp, h4, h5]
            · simp [withdraw, h1, h2, h3, hp, h4, h5]
      · simp at h3
        simp [withdraw, h1, h2, h3]
    · simp [withdraw, h1, h2]
  · simp [withdraw, h1]
/-- C6: a successful deposit on a zero-sentinel account adopts the
materialized handle directly, with no `e_add` call; a successful deposit on
an account with a nonzero `balance_handle` makes exactly one `e_add` call,
combining the prior stored handle with the newly materialized one, and
commits its result as the new `balance_handle`. -/
theorem deposit_functional (env : Env) (dctx : DepositCtx) (amt : Nat) (ct : Bytes)
    (hok : (deposit env dctx amt ct).res = Except.ok ()) :
    ∃ nh, env.newEuint128 ct = some nh ∧
      (dctx.dac_account.balance_handle = 0 →
        (deposit env dctx amt ct).dac_account.balance_handle = nh ∧
        (deposit env dctx amt ct).trace.countP (fun c => c.isEAdd) = 0) ∧
      (dctx.dac_account.balance_handle ≠ 0 →
        ∃ nb, env.eAdd dctx.dac_account.balance_handle nh = some nb ∧
          (deposit env dctx amt ct).dac_account.balance_handle = nb ∧
          (deposit env dctx amt ct).trace.countP (fun c => c.isEAdd) = 1 ∧
          ExtCall.eAdd dctx.dac_account.balance_handle nh ∈ (deposit env dctx amt ct).trace) := by
  by_cases h1 : dctx.dac_account.owner = dctx.user
  · by_cases h2 : dctx.dac_account.state = AccountState.Initialized
    · by_cases h3 : env.transferToVault amt = true
      · rcases ho : env.newEuint128 ct with _ | nh
        · simp [deposit, h1, h2, h3, ho] at hok
        · by_cases h5 : dctx.dac_account.balance_handle = 0
          · by_cases h6 : 2 ≤ dctx.n_remaining
            · by_cases h7 : env.allowOk nh = true
              · refine ⟨nh, rfl, fun _ => ⟨?_, ?_⟩, fun hne => absurd h5 hne⟩
                · simp [deposit, depositAllowStep, h1, h2, h3, ho, h5, h6, h7]
                · simp [deposit, depositAllowStep, h1, h2, h3, ho, h5, h6, h7,
                    List.countP_cons, ExtCall.isEAdd]
              · simp at h7
                simp [deposit, depositAllowStep, h1, h2, h3, ho, h5, h6, h7] at hok
            · refine ⟨nh, rfl, fun _ => ⟨?_, ?_⟩, fun hne => absurd h5 hne⟩
              · simp [deposit, depositAllowStep, h1, h2, h3, ho, h5, h6]
              · simp [deposit, depositAllowStep, h1, h2, h3, ho, h5, h6,
                  List.countP_cons, ExtCall.isEAdd]
          · rcases ha : env.eAdd dctx.dac_account.balance_handle nh with _ | nb
            · simp [deposit, depositAllowStep, h1, h2, h3, ho, h5, ha] at hok
            · by_cases h6 : 2 ≤ dctx.n_remaining
              · by_cases h7 : env.allowOk nb = true
                · refine ⟨nh, rfl, fun h0 => absurd h0 h5,
                    fun _ => ⟨nb, ha, ?_, ?_, ?_⟩⟩
                  · simp [deposit, depositAllowStep, h1, h2, h3, ho, h5, ha, h6, h7]
                  · simp [deposit, depositAllowStep, h1, h2, h3, ho, h5, ha, h6, h7,
                      List.countP_cons, ExtCall.isEAdd]
                  · simp [deposit, depositAllowStep, h1, h2, h3, ho, h5, ha, h6, h7]
                · simp at h7
                  simp [deposit, depositAllowStep, h1, h2, h3, ho, h5, ha, h6, h7] at hok
              · refine ⟨nh, rfl, fun h0 => absurd h0 h5,
                  fun _ => ⟨nb, ha, ?_, ?_, ?_⟩⟩
                · simp [deposit, depositAllowStep, h1, h2, h3, ho, h5, ha, h6]
                · simp [deposit, depositAllowStep, h1, h2, h3, ho, h5, ha, h6,
                    List.countP_cons, ExtCall.isEAdd]
                · simp [deposit, depositAllowStep, h1, h2, h3, ho, h5, ha, h6]
      · simp at h3
        simp [deposit, h1, h2, h3] at hok
    · simp [deposit, h1, h2] at hok
  · simp [deposit, h1] at hok

/-- Witness for `deposit_functional`: a concrete successful second deposit
on an account whose balance handle is 77. -/
theorem deposit_functional_witness :
    ∃ nh, envA.newEuint128 [3] = some nh ∧
      (acctPos.balance_handle = 0 →
        (deposit envA ⟨mintA, acctPos, 21, 2⟩ 5 [3]).dac_account.balance_handle = nh ∧
        (deposit envA ⟨mintA, acctPos, 21, 2⟩ 5 [3]).trace.countP (fun c => c.isEAdd) = 0) ∧
      (acctPos.balance_handle ≠ 0 →
        ∃ nb, envA.eAdd acctPos.balance_handle nh = some nb ∧
          (deposit envA ⟨mintA, acctPos, 21, 2⟩ 5 [3]).dac_account.balance_handle = nb ∧
          (deposit envA ⟨mintA, acctPos, 21, 2⟩ 5 [3]).trace.countP (fun c => c.isEAdd) = 1 ∧
          ExtCall.eAdd acctPos.balance_handle nh ∈
            (deposit envA ⟨mintA, acctPos, 21, 2⟩ 5 [3]).trace) :=
  deposit_functional envA ⟨mintA, acctPos, 21, 2⟩ 5 [3] (by decide)
/-- C5: a successful transfer makes exactly one `e_sub`, applied to the
source's prior stored handle and the materialized transfer handle, requested
and committed before the destination update (the trace starts with
`new_euint128` followed immediately by that `e_sub`); the destination gets
exactly one `e_add` of its prior handle and the transfer handle — unless it
was at the zero sentinel, in which case it adopts the transfer handle with
no `e_add` at all; and if the subtraction step fails, neither account is
updated and no `e_add` executes. -/
theorem transfer_functional (env : Env) (tctx : TransferCtx) (ct : Bytes) :
    ((transfer_tokens env tctx ct).res = Except.ok () →
      ∃ t ns, env.newEuint128 ct = some t ∧
        env.eSub tctx.source.balance_handle t = some ns ∧
        (transfer_tokens env tctx ct).source.balance_handle = ns ∧
        (transfer_tokens env tctx ct).trace.countP (fun c => c.isESub) = 1 ∧
        (∃ rest, (transfer_tokens env tctx ct).trace =
          ExtCall.newEuint128 ct :: ExtCall.eSub tctx.source.balance_handle t :: rest) ∧
        (tctx.destination.balance_handle = 0 →
          (transfer_tokens env tctx ct).destination.balance_handle = t ∧
          (transfer_tokens env tctx ct).trace.countP (fun c => c.isEAdd) = 0) ∧
        (tctx.destination.balance_handle ≠ 0 →
          ∃ nd, env.eAdd tctx.destination.balance_handle t = some nd ∧
            (transfer_tokens env tctx ct).destination.balance_handle = nd ∧
            (transfer_tokens env tctx ct).trace.countP (fun c => c.isEAdd) = 1 ∧
            ExtCall.eAdd tctx.destination.balance_handle t ∈
              (transfer_tokens env tctx ct).trace)) ∧
    (∀ t, env.newEuint128 ct = some t →
      env.eSub tctx.source.balance_handle t = none →
      (transfer_tokens env tctx ct).source = tctx.source ∧
      (transfer_tokens env tctx ct).destination = tctx.destination ∧
      ∀ a b, ExtCall.eAdd a b ∉ (transfer_tokens env tctx ct).trace) := by
  by_cases h1 : tctx.source.owner = tctx.authority
  · by_cases h2 : tctx.source.state = AccountState.Initialized
    · by_cases h3 : tctx.destination.state = AccountState.Initialized
      · by_cases h4 : tctx.destination.mint = tctx.source.mint
        · constructor
          · intro hok
            rcases ho : env.newEuint128 ct with _ | t
            · simp [transfer_tokens, h1, h2, h3, h4, ho] at hok
            · rcases hs : env.eSub tctx.source.balance_handle t with _ | ns
              · simp [transfer_tokens, h1, h2, h3, h4, ho, hs] at hok
              · by_cases hd0 : tctx.destination.balance_handle = 0
                · by_cases h6 : 4 ≤ tctx.n_remaining
                  · by_cases h7 : env.allowOk ns = true
                    · by_cases h8 : env.allowOk t = true
                      · refine ⟨t, ns, rfl, hs, ?_, ?_,
                          ⟨[ExtCall.allowCall ns, ExtCall.allowCall t], ?_⟩,
                          fun _ => ⟨?_, ?_⟩, fun hne => absurd hd0 hne⟩ <;>
                          simp [transfer_tokens, transferAllowStep, h1, h2, h3, h4,
                            ho, hs, hd0, h6, h7, h8, List.countP_cons,
                            ExtCall.isESub, ExtCall.isEAdd]
                      · simp at h8
                        simp [transfer_tokens, transferAllowStep, h1, h2, h3, h4,
                          ho, hs, hd0, h6, h7, h8] at hok
                    · simp at h7
                      simp [transfer_tokens, transferAllowStep, h1, h2, h3, h4,
                        ho, hs, hd0, h6, h7] at hok
                  · refine ⟨t, ns, rfl, hs, ?_, ?_, ⟨[], ?_⟩,
                      fun _ => ⟨?_, ?_⟩, fun hne => absurd hd0 hne⟩ <;>
                      simp [transfer_tokens, transferAllowStep, h1, h2, h3, h4,
                        ho, hs, hd0, h6, List.countP_cons,
                        ExtCall.isESub, ExtCall.isEAdd]
                · rcases ha : env.eAdd tctx.destination.balance_handle t with _ | nd
                  · simp [transfer_tokens, transferAllowStep, h1, h2, h3, h4,
                      ho, hs, hd0, ha] at hok
                  · by_cases h6 : 4 ≤ tctx.n_remaining
                    · by_cases h7 : env.allowOk ns = true
                      · by_cases h8 : env.allowOk nd = true
                        · refine ⟨t, ns, rfl, hs, ?_, ?_,
                            ⟨[ExtCall.eAdd tctx.destination.balance_handle t,
                              ExtCall.allowCall ns, ExtCall.allowCall nd], ?_⟩,
                            fun h0 => absurd h0 hd0,
                            fun _ => ⟨nd, ha, ?_, ?_, ?_⟩⟩ <;>
                            simp [transfer_tokens, transferAllowStep, h1, h2, h3, h4,
                              ho, hs, hd0, ha, h6, h7, h8, List.countP_cons,
                              ExtCall.isESub, ExtCall.isEAdd]
                        · simp at h8
                          simp [transfer_tokens, transferAllowStep, h1, h2, h3, h4,
                            ho, hs, hd0, ha, h6, h7, h8] at hok
                      · simp at h7
                        simp [transfer_tokens, transferAllowStep, h1, h2, h3, h4,
                          ho, hs, hd0, ha, h6, h7] at hok
                    · refine ⟨t, ns, rfl, hs, ?_, ?_,
                        ⟨[ExtCall.eAdd tctx.destination.balance_handle t], ?_⟩,
                        fun h0 => absurd h0 hd0,
                        fun _ => ⟨nd, ha, ?_, ?_, ?_⟩⟩ <;>
                        simp [transfer_tokens, transferAllowStep, h1, h2, h3, h4,
                          ho, hs, hd0, ha, h6, List.countP_cons,
                          ExtCall.isESub, ExtCall.isEAdd]
          · intro t hto hsub
            simp [transfer_tokens, h1, h2, h3, h4, hto, hsub]
        · constructor
          · intro hok; simp [transfer_tokens, h1, h2, h3, h4] at hok
          · intro t hto hsub; simp [transfer_tokens, h1, h2, h3, h4]
      · constructor
        · intro hok; simp [transfer_tokens, h1, h2, h3] at hok
        · intro t hto hsub; simp [transfer_tokens, h1, h2, h3]
    · constructor
      · intro hok; simp [transfer_tokens, h1, h2] at hok
      · intro t hto hsub; simp [transfer_tokens, h1, h2]
  · constructor
    · intro hok; simp [transfer_tokens, h1] at hok
    · intro t hto hsub; simp [transfer_tokens, h1]

/-- Witness for `transfer_functional`: a concrete successful transfer from an
account with stored handle 77 to a destination at the zero sentinel. -/
theorem transfer_functional_witness :
    ∃ t ns, envA.newEuint128 [3] = some t ∧
      envA.eSub acctPos.balance_handle t = some ns ∧
      (transfer_tokens envA ⟨acctPos, acctZero, 21, 4⟩ [3]).source.balance_handle = ns ∧
      (transfer_tokens envA ⟨acctPos, acctZero, 21, 4⟩ [3]).trace.countP
        (fun c => c.isESub) = 1 ∧
      (∃ rest, (transfer_tokens envA ⟨acctPos, acctZero, 21, 4⟩ [3]).trace =
        ExtCall.newEuint128 [3] :: ExtCall.eSub acctPos.balance_handle t :: rest) ∧
      (acctZero.balance_handle = 0 →
        (transfer_tokens envA ⟨acctPos, acctZero, 21, 4⟩ [3]).destination.balance_handle = t ∧
        (transfer_tokens envA ⟨acctPos, acctZero, 21, 4⟩ [3]).trace.countP
          (fun c => c.isEAdd) = 0) ∧
      (acctZero.balance_handle ≠ 0 →
        ∃ nd, envA.eAdd acctZero.balance_handle t = some nd ∧
          (transfer_tokens envA ⟨acctPos, acctZero, 21, 4⟩ [3]).destination.balance_handle = nd ∧
          (transfer_tokens envA ⟨acctPos, acctZero, 21, 4⟩ [3]).trace.countP
            (fun c => c.isEAdd) = 1 ∧
          ExtCall.eAdd acctZero.balance_handle t ∈
            (transfer_tokens envA ⟨acctPos, acctZero, 21, 4⟩ [3]).trace) :=
  (transfer_functional envA ⟨acctPos, acctZero, 21, 4⟩ [3]).1 (by decide)
/-- C1 counterexample: a successful `transfer_tokens` from a source account
whose stored `balance_handle` is the zero sentinel passes 0 to `e_sub` as an
operand — the source subtraction has no sentinel guard, so the claim that no
`e_sub`/`e_add` call ever receives a handle argument equal to 0 is false. -/
theorem sentinel_operand_counterexample :
    acctZero.balance_handle = 0 ∧
    (transfer_tokens envA ⟨acctZero, acctPos, 20, 0⟩ [3]).res = Except.ok () ∧
    ExtCall.eSub 0 4 ∈ (transfer_tokens envA ⟨acctZero, acctPos, 20, 0⟩ [3]).trace := by
  decide

set_option maxHeartbeats 1000000 in
/-- C1 amended: the zero sentinel stored in `balance_handle` is kept out of
encrypted arithmetic by deposit (direct adoption instead of `e_add`; no
`e_sub` at all), by withdraw (no arithmetic calls), and by the destination
leg of transfer (direct adoption when the destination is at the sentinel) —
but the source leg of transfer passes the source's stored `balance_handle`
to `e_sub` unconditionally, including when it is the zero sentinel. -/
theorem sentinel_not_operand_amended (env : Env) (dctx : DepositCtx) (amt : Nat)
    (ct : Bytes) (tctx : TransferCtx) (ct2 : Bytes) (wctx : WithdrawCtx) (bh pt : Bytes) :
    (∀ a b, ExtCall.eAdd a b ∈ (deposit env dctx amt ct).trace →
      a = dctx.dac_account.balance_handle ∧ a ≠ 0) ∧
    (∀ a b, ExtCall.eSub a b ∉ (deposit env dctx amt ct).trace) ∧
    (∀ a b, ExtCall.eAdd a b ∉ (withdraw env wctx bh pt).trace) ∧
    (∀ a b, ExtCall.eSub a b ∉ (withdraw env wctx bh pt).trace) ∧
    (∀ a b, ExtCall.eAdd a b ∈ (transfer_tokens env tctx ct2).trace →
      a = tctx.destination.balance_handle ∧ a ≠ 0) ∧
    (∀ a b, ExtCall.eSub a b ∈ (transfer_tokens env tctx ct2).trace →
      a = tctx.source.balance_handle) := by
  refine ⟨?_, ?_, ?_, ?_, ?_, ?_⟩
  · intro a b hmem
    unfold deposit depositAllowStep at hmem
    repeat' split at hmem
    all_goals simp_all
  · intro a b hmem
    unfold deposit depositAllowStep at hmem
    repeat' split at hmem
    all_goals simp_all
  · intro a b hmem
    unfold withdraw at hmem
    repeat' split at hmem
    all_goals simp_all
  · intro a b hmem
    unfold withdraw at hmem
    repeat' split at hmem
    all_goals simp_all
  · intro a b hmem
    unfold transfer_tokens transferAllowStep at hmem
    repeat' split at hmem
    all_goals simp_all
  · intro a b hmem
    unfold transfer_tokens transferAllowStep at hmem
    repeat' split at hmem
    all_goals simp_all

/-- Witness for `sentinel_not_operand_amended`: at a concrete second deposit
the single `e_add` takes the prior (nonzero) stored handle, and at a
concrete transfer the `e_sub` takes the source's stored handle. -/
theorem sentinel_not_operand_amended_witness :
    (77 = acctPos.balance_handle ∧ 77 ≠ 0) ∧ 77 = acctPos.balance_handle := by
  constructor
  · exact (sentinel_not_operand_amended envA ⟨mintA, acctPos, 21, 2⟩ 5 [3]
      ⟨acctPos, acctZero, 21, 4⟩ [3] ⟨mintA, acctPos, 21⟩ [7] [5]).1 77 4 (by decide)
  · exact (sentinel_not_operand_amended envA ⟨mintA, acctPos, 21, 2⟩ 5 [3]
      ⟨acctPos, acctZero, 21, 4⟩ [3] ⟨mintA, acctPos, 21⟩ [7] [5]).2.2.2.2.2 77 4 (by decide)
/-- C3 counterexample: a deposit on which only the decryption-access grant
(`allow`) call fails does NOT return success — the handler propagates the
grant failure with `?`, so the operation aborts with an error instead of
merely reporting the grant outcome. -/
theorem grant_failure_fatal_counterexample :
    (deposit envAllowFail ⟨mintA, acctZero, 20, 2⟩ 5 [3]).res =
      Except.error ProgError.cpi ∧
    (deposit envAllowFail ⟨mintA, acctZero, 20, 2⟩ 5 [3]).res ≠ Except.ok () := by
  decide

set_option maxHeartbeats 1600000 in
/-- C3 amended: a failure of the decryption-access grant (`allow`) call is
fatal to the enclosing operation: whenever deposit or transfer_tokens issues
a grant call whose handle the oracle rejects, the operation returns the
propagated CPI error instead of success — in every branch (sentinel or
`e_add` path of deposit, sentinel or `e_add` destination of transfer, and
for either of transfer's two grants).  Every grant is issued on an
already-committed balance handle, and grants are issued at all only when
enough `remaining_accounts` are supplied (at least 2 for deposit, at least
4 for transfer); with fewer, the grant step is skipped entirely. -/
theorem grant_failure_fatal (env : Env) (dctx : DepositCtx) (amt : Nat) (ct : Bytes)
    (tctx : TransferCtx) (ct2 : Bytes) :
    (∀ h, ExtCall.allowCall h ∈ (deposit env dctx amt ct).trace →
      env.allowOk h = false →
      (deposit env dctx amt ct).res = Except.error ProgError.cpi) ∧
    (∀ h, ExtCall.allowCall h ∈ (deposit env dctx amt ct).trace →
      (deposit env dctx amt ct).dac_account.balance_handle = h) ∧
    (dctx.n_remaining < 2 →
      ∀ h, ExtCall.allowCall h ∉ (deposit env dctx amt ct).trace) ∧
    (∀ h, ExtCall.allowCall h ∈ (transfer_tokens env tctx ct2).trace →
      env.allowOk h = false →
      (transfer_tokens env tctx ct2).res = Except.error ProgError.cpi) ∧
    (∀ h, ExtCall.allowCall h ∈ (transfer_tokens env tctx ct2).trace →
      (transfer_tokens env tctx ct2).source.balance_handle = h ∨
      (transfer_tokens env tctx ct2).destination.balance_handle = h) ∧
    (tctx.n_remaining < 4 →
      ∀ h, ExtCall.allowCall h ∉ (transfer_tokens env tctx ct2).trace) := by
  refine ⟨?_, ?_, ?_, ?_, ?_, ?_⟩
  · intro h hmem hfail
    unfold deposit depositAllowStep at hmem ⊢
    repeat' split at hmem
    all_goals simp_all
  · intro h hmem
    unfold deposit depositAllowStep at hmem ⊢
    repeat' split at hmem
    all_goals simp_all
  · intro hlt h hmem
    unfold deposit depositAllowStep at hmem
    repeat' split at hmem
    all_goals try simp_all
    all_goals omega
  · intro h hmem hfail
    unfold transfer_tokens transferAllowStep at hmem ⊢
    repeat' split at hmem
    all_goals try simp_all
    all_goals rcases hmem with rfl | rfl <;> simp_all
  · intro h hmem
    unfold transfer_tokens transferAllowStep at hmem ⊢
    repeat' split at hmem
    all_goals try simp_all
    all_goals rcases hmem with rfl | rfl <;> simp_all
  · intro hlt h hmem
    unfold transfer_tokens transferAllowStep at hmem
    repeat' split at hmem
    all_goals try simp_all
    all_goals omega

/-- Witness for `grant_failure_fatal`: a failed grant on the `e_add` path of
a concrete deposit is fatal; a failed second (destination) grant of a
concrete transfer is fatal; and with too few remaining accounts no grant
call is issued at all. -/
theorem grant_failure_fatal_witness :
    (deposit envAllowFail ⟨mintA, acctPos, 21, 2⟩ 5 [7]).res =
      Except.error ProgError.cpi ∧
    (transfer_tokens envDestAllowFail ⟨acctPos, acctZero, 21, 4⟩ [3]).res =
      Except.error ProgError.cpi ∧
    ExtCall.allowCall 5 ∉ (deposit envAllowFail ⟨mintA, acctPos, 21, 0⟩ 5 [7]).trace ∧
    ExtCall.allowCall 5 ∉
      (transfer_tokens envDestAllowFail ⟨acctPos, acctZero, 21, 0⟩ [3]).trace := by
  refine ⟨?_, ?_, ?_, ?_⟩
  · exact (grant_failure_fatal envAllowFail ⟨mintA, acctPos, 21, 2⟩ 5 [7]
      ⟨acctPos, acctZero, 21, 4⟩ [3]).1 86 (by decide) (by decide)
  · exact (grant_failure_fatal envDestAllowFail ⟨mintA, acctPos, 21, 2⟩ 5 [7]
      ⟨acctPos, acctZero, 21, 4⟩ [3]).2.2.2.1 4 (by decide) (by decide)
  · exact (grant_failure_fatal envAllowFail ⟨mintA, acctPos, 21, 0⟩ 5 [7]
      ⟨acctPos, acctZero, 21, 4⟩ [3]).2.2.1 (by decide) 5
  · exact (grant_failure_fatal envDestAllowFail ⟨mintA, acctPos, 21, 2⟩ 5 [7]
      ⟨acctPos, acctZero, 21, 0⟩ [3]).2.2.2.2.2 (by decide) 5
